/-
  Verification of the valutatrade_hub rate-resolution and wallet
  transaction engine against its natural-language specification.

  Shallow embedding conventions:
  * Python floats are modelled as exact rationals.
  * Timestamps are integer seconds; the Python datetime arithmetic
    (age = now - updated_at, compared against a timedelta of TTL seconds)
    becomes integer subtraction and comparison.
  * Python dicts are insertion-ordered association lists; assignment
    replaces an existing key in place and appends a missing one.
  * Python exceptions become an inductive error type carried in Except;
    each constructor corresponds to one exception class from
    valutatrade_hub/core/exceptions.py, with ValueError message payloads
    represented structurally by the interpolated values.
-/
import Mathlib

namespace ValutaTrade

instance {ε α : Type} [DecidableEq ε] [DecidableEq α] :
    DecidableEq (Except ε α) := fun x y =>
  match x, y with
  | .ok a, .ok b =>
    if h : a = b then .isTrue (by rw [h])
    else .isFalse (fun hc => h (Except.ok.inj hc))
  | .error a, .error b =>
    if h : a = b then .isTrue (by rw [h])
    else .isFalse (fun hc => h (Except.error.inj hc))
  | .ok _, .error _ => .isFalse (fun hc => Except.noConfusion hc)
  | .error _, .ok _ => .isFalse (fun hc => Except.noConfusion hc)

/-- Python dict lookup on an insertion-ordered association list
(models `d[k]` / `d.get(k)` / `k in d`). -/
def dictGet {α : Type} (m : List (String × α)) (k : String) : Option α :=
  match m with
  | [] => none
  | (k0, v) :: rest => if k0 = k then some v else dictGet rest k

/-- Python dict assignment `d[k] = v`: replaces an existing key in place,
appends a missing one at the end. -/
def dictInsert {α : Type} (m : List (String × α)) (k : String) (v : α) :
    List (String × α) :=
  match m with
  | [] => [(k, v)]
  | (k0, v0) :: rest =>
    if k0 = k then (k, v) :: rest else (k0, v0) :: dictInsert rest k v

/-- Python `dict.update(new)`, folding assignments of `new` into `m`. -/
def dictUpdate {α : Type} (m new : List (String × α)) : List (String × α) :=
  new.foldl (fun acc kv => dictInsert acc kv.1 kv.2) m

/-- Python `str.strip()`: drop whitespace from both ends. -/
def pyStrip (s : String) : String :=
  ⟨((s.data.dropWhile Char.isWhitespace).reverse.dropWhile
      Char.isWhitespace).reverse⟩

/-- Python `str.upper()` on the ASCII codes the system handles. -/
def pyUpper (s : String) : String :=
  ⟨s.data.map Char.toUpper⟩

/-- Python `str.lower()` on the ASCII codes the system handles. -/
def pyLower (s : String) : String :=
  ⟨s.data.map Char.toLower⟩

/-- Python `str.split(sep)` for a one-character separator, on the
character list. -/
def pySplitChar (c : Char) : List Char → List (List Char)
  | [] => [[]]
  | a :: rest =>
    let r := pySplitChar c rest
    if a = c then [] :: r
    else
      match r with
      | [] => [[a]]
      | h :: t => (a :: h) :: t

/-- Python `pair.split("_")` as used by storage.py and updater.py. -/
def pySplitUnderscore (s : String) : List String :=
  (pySplitChar '_' s.data).map (fun l => ⟨l⟩)

example : pySplitUnderscore "BTC_USD" = ["BTC", "USD"] := by decide
example : (pySplitUnderscore "BTCUSD").length = 1 := by decide
example : (pySplitUnderscore "A_B_C").length = 3 := by decide

/-- Structural payloads of the ValueError messages raised by the wallet
and ledger code (core/models.py Wallet.deposit / Wallet.withdraw and
core/usecases.py buy_currency / sell_currency).  Each constructor stands
for one f-string, carrying the interpolated numeric values. -/
inductive ValueMsg where
  /-- usecases.py: `'amount' должен быть положительным числом` -/
  | nonPositiveAmount
  /-- models.py deposit: wrapped `Некорректная сумма: Сумма пополнения
  должна быть положительной` -/
  | nonPositiveDeposit
  /-- models.py withdraw: wrapped `Некорректная сумма: Сумма снятия
  должна быть положительной` -/
  | nonPositiveWithdraw
  /-- models.py withdraw: wrapped `Некорректная сумма: Недостаточно
  средств. Текущий баланс: {balance}, запрошено: {requested}` -/
  | insufficientMsg (balance requested : ℚ)
  /-- usecases.py buy_currency defensive branch: `Не удалось создать
  кошелёк {code}` (unreachable in normal operation) -/
  | walletCreateFailed (code : String)
deriving Repr, DecidableEq

/-- The exception classes of core/exceptions.py, plus the builtin
ValueError used directly by Wallet and the ledger.  The ApiRequestError
raised by RateManager.get_or_fetch_rate interpolates the currency pair
into its reason string; we carry the pair itself. -/
inductive PyExc where
  | valueError (msg : ValueMsg)
  | invalidCurrencyCodeError (currency_code reason : String)
  | currencyNotFoundError (currency_code : String)
  | insufficientFundsError (currency : String) (available required : ℚ)
  | apiRequestError (from_currency to_currency : String)
  | rateUnavailableError (from_currency to_currency : String)
  | walletNotFoundError (currency_code : String)
deriving Repr, DecidableEq

/-- Discriminator: is this exception an InsufficientFundsError
(the class defined in core/exceptions.py)? -/
def PyExc.isInsufficientFundsError : PyExc → Bool
  | .insufficientFundsError _ _ _ => true
  | _ => false

/-- Wallet (core/models.py): one currency code and a balance.
The private `_balance` field is represented directly. -/
structure Wallet where
  currency_code : String
  balance : ℚ
deriving Repr, DecidableEq

/-- `Wallet.__init__`: stores the code and clamps the starting balance,
`self._balance = max(0.0, float(balance))`.  Total: no exception path. -/
def Wallet.init (currency_code : String) (balance : ℚ) : Wallet :=
  ⟨currency_code, max 0 balance⟩

/-- `Wallet.deposit`: rejects non-positive amounts (the inner ValueError
is caught and re-raised wrapped, still a ValueError), otherwise adds. -/
def Wallet.deposit (w : Wallet) (amount : ℚ) : Except PyExc Wallet :=
  if amount ≤ 0 then .error (.valueError .nonPositiveDeposit)
  else .ok { w with balance := w.balance + amount }

/-- `Wallet.withdraw`: rejects non-positive amounts, then rejects
`amount > balance` with a ValueError whose message interpolates the
current balance and the requested amount; only after both checks is
`self._balance -= amount` executed. -/
def Wallet.withdraw (w : Wallet) (amount : ℚ) : Except PyExc Wallet :=
  if amount ≤ 0 then .error (.valueError .nonPositiveWithdraw)
  else if w.balance < amount then
    .error (.valueError (.insufficientMsg w.balance amount))
  else .ok { w with balance := w.balance - amount }

/-- Portfolio (core/models.py): the wallets dict of one user.
The user id plays no role in the verified operations and is omitted. -/
structure Portfolio where
  wallets : List (String × Wallet)
deriving Repr, DecidableEq

/-- `Portfolio.get_wallet`: dict `.get`. -/
def Portfolio.get_wallet (p : Portfolio) (currency_code : String) :
    Option Wallet :=
  dictGet p.wallets currency_code

/-- `Portfolio.add_currency`: raises if the wallet already exists,
otherwise inserts a fresh zero-balance wallet. -/
def Portfolio.add_currency (p : Portfolio) (currency_code : String) :
    Except PyExc Portfolio :=
  match dictGet p.wallets currency_code with
  | some _ => .error (.valueError (.walletCreateFailed currency_code))
  | none =>
    .ok ⟨dictInsert p.wallets currency_code (Wallet.init currency_code 0)⟩

/-- `Currency._validate_code` (core/currencies.py): empty check, length
2..5, no spaces, alphanumeric.  Python `str.isalnum` is Unicode-aware;
`Char.isAlphanum` is ASCII, which agrees on every code the system uses. -/
def Currency.validate_code (code : String) : Except PyExc Unit :=
  if pyStrip code = "" then
    .error (.invalidCurrencyCodeError code "код валюты не может быть пустым")
  else
    let code_clean := pyUpper (pyStrip code)
    if code_clean.data.length < 2 ∨ 5 < code_clean.data.length then
      .error (.invalidCurrencyCodeError code
        "код должен содержать от 2 до 5 символов")
    else if code_clean.data.contains ' ' then
      .error (.invalidCurrencyCodeError code "код не должен содержать пробелы")
    else if !(code_clean.data.all Char.isAlphanum) then
      .error (.invalidCurrencyCodeError code
        "код должен содержать только буквы и цифры")
    else .ok ()

/-- `validate_currency_code` (core/utils.py): empty check, strip and
upper-case, validate via Currency, return the normalized code. -/
def validate_currency_code (currency_code : String) : Except PyExc String :=
  if pyStrip currency_code = "" then
    .error (.invalidCurrencyCodeError currency_code
      "код валюты не может быть пустым")
  else
    let code_clean := pyUpper (pyStrip currency_code)
    match Currency.validate_code code_clean with
    | .error e => .error e
    | .ok _ => .ok code_clean

/-- The codes registered by `_initialize_registry` (core/currencies.py). -/
def CURRENCY_REGISTRY : List String :=
  ["USD", "EUR", "GBP", "JPY", "CHF", "RUB", "CNY", "CAD", "AUD",
   "BTC", "ETH", "LTC", "XRP", "ADA", "DOT"]

/-- `get_currency` (core/currencies.py): normalize, validate, then look
the code up in the registry; returns the registered code. -/
def get_currency (code : String) : Except PyExc String :=
  let code_clean := pyUpper (pyStrip code)
  match Currency.validate_code code_clean with
  | .error e => .error e
  | .ok _ =>
    if code_clean ∈ CURRENCY_REGISTRY then .ok code_clean
    else .error (.currencyNotFoundError code_clean)

example : validate_currency_code "BTC" = .ok "BTC" := by decide
example : get_currency "BTC" = .ok "BTC" := by decide
example : Wallet.withdraw (Wallet.init "USD" 100) 150
    = .error (.valueError (.insufficientMsg 100 150)) := by decide

/-- One entry of the RateManager in-memory rates dict (usecases.py):
`{"rate": ..., "updated_at": ...}`.  `updated_at` is `none` when the
field is missing or its ISO string fails to parse (both make
`is_rate_fresh` return False in the source). -/
structure RateEntry where
  rate : ℚ
  updated_at : Option ℤ
deriving Repr, DecidableEq

/-- The rates dict of RateManager, keyed by `f"{from}_{to}"`. -/
abbrev RatesMap := List (String × RateEntry)

/-- The pair key `f"{from_currency}_{to_currency}"`. -/
def rateKey (from_currency to_currency : String) : String :=
  from_currency ++ "_" ++ to_currency

/-- `settings.rates_ttl_seconds` (infra/settings.py line 46). -/
def rates_ttl_seconds : ℤ := 300

/-- `RateManager.get_rate`: 1.0 for equal currencies, else the direct
pair, else the multiplicative inverse of the reverse pair, else None. -/
def RateManager.get_rate (rates : RatesMap)
    (from_currency to_currency : String) : Option ℚ :=
  if from_currency = to_currency then some 1
  else
    match dictGet rates (rateKey from_currency to_currency) with
    | some e => some e.rate
    | none =>
      match dictGet rates (rateKey to_currency from_currency) with
      | some e => some (1 / e.rate)
      | none => none

/-- `RateManager.is_rate_fresh`: True for equal currencies; otherwise
resolves the TTL (Python `max_age_seconds or settings.rates_ttl_seconds`
falls back to the default when the argument is None or 0), picks the
direct key and falls back to the reverse key, and checks
`now - updated_at <= timedelta(seconds=max_age)`.  Missing entry,
missing or unparseable `updated_at` give False. -/
def RateManager.is_rate_fresh (rates : RatesMap) (now : ℤ)
    (from_currency to_currency : String) (max_age_seconds : Option ℤ) :
    Bool :=
  if from_currency = to_currency then true
  else
    let max_age : ℤ :=
      match max_age_seconds with
      | some n => if n = 0 then rates_ttl_seconds else n
      | none => rates_ttl_seconds
    let entry :=
      match dictGet rates (rateKey from_currency to_currency) with
      | some e => some e
      | none => dictGet rates (rateKey to_currency from_currency)
    match entry with
    | none => false
    | some e =>
      match e.updated_at with
      | none => false
      | some t => decide (now - t ≤ max_age)

/-- `RateManager.update_rate`: store the given rate under the direct key
with `updated_at = now`.  No validation of the rate value is performed.
(The accompanying `_save_rates` persistence is modelled in the
crash-safety section below.) -/
def RateManager.update_rate (rates : RatesMap) (now : ℤ)
    (from_currency to_currency : String) (rate : ℚ) : RatesMap :=
  dictInsert rates (rateKey from_currency to_currency)
    { rate := rate, updated_at := some now }

/-- The fixed fallback table of `RateManager.get_fallback_rate`
(usecases.py lines 498-534), decimal literals as exact rationals. -/
def fallback_rates : List (String × List (String × ℚ)) :=
  [("USD", [("USD", 1), ("EUR", 92/100), ("BTC", 23/1000000),
            ("ETH", 35/100000), ("RUB", 92)]),
   ("EUR", [("USD", 109/100), ("EUR", 1), ("BTC", 25/1000000),
            ("ETH", 38/100000), ("RUB", 100)]),
   ("BTC", [("USD", 43500), ("EUR", 40000), ("BTC", 1),
            ("ETH", 155/10), ("RUB", 4002000)]),
   ("ETH", [("USD", 2800), ("EUR", 2576), ("BTC", 64/1000),
            ("ETH", 1), ("RUB", 257600)]),
   ("RUB", [("USD", 11/1000), ("EUR", 1/100), ("BTC", 25/100000000),
            ("ETH", 39/10000000), ("RUB", 1)])]

/-- `RateManager.get_fallback_rate`: nested dict lookup in the fixed
table, None when either currency is absent. -/
def RateManager.get_fallback_rate (from_currency to_currency : String) :
    Option ℚ :=
  match dictGet fallback_rates from_currency with
  | some inner => dictGet inner to_currency
  | none => none

/-- Result of a successful `get_or_fetch_rate`, instrumented with the
observable effects: whether the fallback source was invoked and whether
the cache was written (`update_rate`).  `rates` is the rates dict after
the call. -/
structure FetchResult where
  rate : ℚ
  rates : RatesMap
  usedFallback : Bool
  wroteCache : Bool
deriving Repr, DecidableEq

/-- The fallback arm of `get_or_fetch_rate`: consult the fixed table; on
a hit, `update_rate` and return the fallback rate; otherwise raise
`ApiRequestError` (the `except Exception` wrapper around the pure table
lookup is dead code and has no model).  -/
def RateManager.fetch_fallback (rates : RatesMap) (now : ℤ)
    (from_currency to_currency : String) : Except PyExc FetchResult :=
  match RateManager.get_fallback_rate from_currency to_currency with
  | some fallback_rate =>
    .ok { rate := fallback_rate,
          rates := RateManager.update_rate rates now
            from_currency to_currency fallback_rate,
          usedFallback := true, wroteCache := true }
  | none => .error (.apiRequestError from_currency to_currency)

/-- `RateManager.get_or_fetch_rate`: serve the cached rate when present
and fresh (no fallback call, no cache write), otherwise go through the
fallback arm. -/
def RateManager.get_or_fetch_rate (rates : RatesMap) (now : ℤ)
    (from_currency to_currency : String) : Except PyExc FetchResult :=
  match RateManager.get_rate rates from_currency to_currency with
  | some rate =>
    if RateManager.is_rate_fresh rates now from_currency to_currency none
    then .ok { rate := rate, rates := rates,
               usedFallback := false, wroteCache := false }
    else RateManager.fetch_fallback rates now from_currency to_currency
  | none => RateManager.fetch_fallback rates now from_currency to_currency

example :
    RateManager.get_or_fetch_rate [("BTC_USD", ⟨43500, some 0⟩)] 100
      "BTC" "USD"
    = .ok ⟨43500, [("BTC_USD", ⟨43500, some 0⟩)], false, false⟩ := by decide

example :
    RateManager.get_or_fetch_rate [("BTC_USD", ⟨43500, some 0⟩)] 100
      "USD" "BTC"
    = .ok ⟨1/43500, [("BTC_USD", ⟨43500, some 0⟩)], false, false⟩ := by
  rfl

example :
    RateManager.get_or_fetch_rate [] 0 "XRP" "USD"
    = .error (.apiRequestError "XRP" "USD") := by decide

/-- The state a buy/sell operation reads and writes: the portfolio of
the acting user (PortfolioManager.get_portfolio) and the RateManager
rates dict.  A raised exception leaves the state as mutated up to the
raise point, which the pair-returning style makes explicit. -/
structure TradeState where
  portfolio : Portfolio
  rates : RatesMap
deriving Repr, DecidableEq

/-- The `(rate, cost_usd)` respectively `(rate, revenue_usd)` tuple
returned by buy_currency / sell_currency. -/
structure TradeOk where
  rate : ℚ
  amount_usd : ℚ
deriving Repr, DecidableEq

/-- Balance of the wallet for `code`, 0 when no wallet exists. -/
def walletBalance (p : Portfolio) (code : String) : ℚ :=
  match p.get_wallet code with
  | some w => w.balance
  | none => 0

/-- `PortfolioManager.buy_currency` (usecases.py lines 246-303):
amount check, currency validation and registry check, rate resolution
(`ApiRequestError` translated to `RateUnavailableError`), lazy wallet
creation (the guarded `add_currency` call inserts a fresh zero wallet),
deposit, persist.  The returned state carries the rates dict as mutated
by the rate manager and the portfolio as mutated by the ledger. -/
def PortfolioManager.buy_currency (s : TradeState) (now : ℤ)
    (currency : String) (amount : ℚ) :
    Except PyExc TradeOk × TradeState :=
  if amount ≤ 0 then (.error (.valueError .nonPositiveAmount), s)
  else
    match validate_currency_code currency with
    | .error e => (.error e, s)
    | .ok currency_code =>
      match get_currency currency_code with
      | .error e => (.error e, s)
      | .ok _ =>
        match RateManager.get_or_fetch_rate s.rates now currency_code
            "USD" with
        | .error (.apiRequestError _ _) =>
          (.error (.rateUnavailableError currency_code "USD"), s)
        | .error e => (.error e, s)
        | .ok fr =>
          let p : Portfolio :=
            match s.portfolio.get_wallet currency_code with
            | some _ => s.portfolio
            | none =>
              ⟨dictInsert s.portfolio.wallets currency_code
                (Wallet.init currency_code 0)⟩
          match p.get_wallet currency_code with
          | none =>
            (.error (.valueError (.walletCreateFailed currency_code)),
             { s with rates := fr.rates })
          | some wallet =>
            match wallet.deposit amount with
            | .error e => (.error e, { s with rates := fr.rates })
            | .ok w1 =>
              (.ok { rate := fr.rate, amount_usd := amount * fr.rate },
               { portfolio := ⟨dictInsert p.wallets currency_code w1⟩,
                 rates := fr.rates })

/-- `PortfolioManager.sell_currency` (usecases.py lines 306-367):
amount check, currency validation and registry check, wallet existence
check (`WalletNotFoundError`), balance sufficiency check
(`InsufficientFundsError` carrying the available balance and the
requested amount) — both before rate resolution — then rate resolution
(`ApiRequestError` translated to `RateUnavailableError`), withdraw,
persist. -/
def PortfolioManager.sell_currency (s : TradeState) (now : ℤ)
    (currency : String) (amount : ℚ) :
    Except PyExc TradeOk × TradeState :=
  if amount ≤ 0 then (.error (.valueError .nonPositiveAmount), s)
  else
    match validate_currency_code currency with
    | .error e => (.error e, s)
    | .ok currency_code =>
      match get_currency currency_code with
      | .error e => (.error e, s)
      | .ok _ =>
        match s.portfolio.get_wallet currency_code with
        | none => (.error (.walletNotFoundError currency_code), s)
        | some wallet =>
          let old_balance := wallet.balance
          if old_balance < amount then
            (.error (.insufficientFundsError currency_code old_balance
              amount), s)
          else
            match RateManager.get_or_fetch_rate s.rates now currency_code
                "USD" with
            | .error (.apiRequestError _ _) =>
              (.error (.rateUnavailableError currency_code "USD"), s)
            | .error e => (.error e, s)
            | .ok fr =>
              match wallet.withdraw amount with
              | .error e => (.error e, { s with rates := fr.rates })
              | .ok w1 =>
                (.ok { rate := fr.rate, amount_usd := amount * fr.rate },
                 { portfolio :=
                     ⟨dictInsert s.portfolio.wallets currency_code w1⟩,
                   rates := fr.rates })

/-- `PortfolioManager._load_portfolios` wallet construction
(usecases.py lines 165-191): each stored balance goes through
`Wallet.__init__` and is therefore clamped to be non-negative. -/
def PortfolioManager.load_wallets (stored : List (String × ℚ)) :
    List (String × Wallet) :=
  stored.map (fun pr => (pr.1, Wallet.init pr.1 pr.2))

/-- Outcome of one provider client `fetch_rates()` call: a pair→rate
dict, or the message of the exception it raised. -/
abbrev FetchOutcome := Except String (List (String × ℚ))

/-- One entry of the rates cache written by `save_rates_cache`
(parser_service/storage.py). -/
structure CacheEntry where
  rate : ℚ
  updated_at : ℤ
  source : String
deriving Repr, DecidableEq

/-- The result dict of `RatesUpdater.run_update`, plus the rates cache
content written by its `save_rates_cache` call. -/
structure UpdateOutput where
  total_rates : ℕ
  last_refresh : ℤ
  errors : Option (List String)
  cache_pairs : List (String × CacheEntry)
deriving Repr, DecidableEq

/-- updater.py: is the CoinGecko client selected
(`source is None or source.lower() == "coingecko"`). -/
def cryptoSelected (source : Option String) : Bool :=
  match source with
  | none => true
  | some s => pyLower s = "coingecko"

/-- updater.py: is the ExchangeRate-API client selected
(`source is None or source.lower() == "exchangerate"`). -/
def fiatSelected (source : Option String) : Bool :=
  match source with
  | none => true
  | some s => pyLower s = "exchangerate"

/-- Rates contributed by the CoinGecko client: its fetched dict when it
is selected and succeeds, empty otherwise (a failure only appends to
`errors`). -/
def cryptoRates (source : Option String) (crypto_fetch : FetchOutcome) :
    List (String × ℚ) :=
  if cryptoSelected source then
    match crypto_fetch with
    | .ok r => r
    | .error _ => []
  else []

/-- Error strings contributed by the CoinGecko client. -/
def cryptoErrors (source : Option String) (crypto_fetch : FetchOutcome) :
    List String :=
  if cryptoSelected source then
    match crypto_fetch with
    | .ok _ => []
    | .error e => ["Failed to fetch from CoinGecko: " ++ e]
  else []

/-- Rates contributed by the ExchangeRate-API client; a missing client
(no API key) is skipped with a warning only. -/
def fiatRates (source : Option String)
    (fiat_client : Option FetchOutcome) : List (String × ℚ) :=
  if fiatSelected source then
    match fiat_client with
    | none => []
    | some (.ok r) => r
    | some (.error _) => []
  else []

/-- Error strings contributed by the ExchangeRate-API client. -/
def fiatErrors (source : Option String)
    (fiat_client : Option FetchOutcome) : List String :=
  if fiatSelected source then
    match fiat_client with
    | none => []
    | some (.ok _) => []
    | some (.error e) => ["Failed to fetch from ExchangeRate-API: " ++ e]
  else []

/-- `RatesStorage.save_rates_cache` (storage.py lines 106-142): one
cache entry per fetched pair whose key splits into exactly two parts on
the underscore (others are skipped), stamped with the write time and the
source recorded for the pair (the `rates` dict it receives has unique
keys, so dict assignment is a plain append). -/
def RatesStorage.save_rates_cache (rates : List (String × ℚ))
    (sources : List (String × String)) (now : ℤ) :
    List (String × CacheEntry) :=
  rates.filterMap (fun pr =>
    if (pySplitUnderscore pr.1).length = 2 then
      some (pr.1, { rate := pr.2, updated_at := now,
                    source := (dictGet sources pr.1).getD "Unknown" })
    else none)

/-- The merged `all_rates` dict of `run_update`: starts empty, then
`update`d with the crypto rates and the fiat rates in that order. -/
def RatesUpdater.all_rates (source : Option String)
    (crypto_fetch : FetchOutcome) (fiat_client : Option FetchOutcome) :
    List (String × ℚ) :=
  dictUpdate (dictUpdate [] (cryptoRates source crypto_fetch))
    (fiatRates source fiat_client)

/-- The merged `all_sources` dict of `run_update`. -/
def RatesUpdater.all_sources (source : Option String)
    (crypto_fetch : FetchOutcome) (fiat_client : Option FetchOutcome) :
    List (String × String) :=
  dictUpdate
    (dictUpdate []
      ((cryptoRates source crypto_fetch).map
        (fun pr => (pr.1, "CoinGecko"))))
    ((fiatRates source fiat_client).map
      (fun pr => (pr.1, "ExchangeRate-API")))

/-- `RatesUpdater.run_update` (updater.py lines 48-185): run the
selected clients, collecting a per-client error string on failure; raise
when the merged rates dict is empty; otherwise write the cache in one
batch and report the count, refresh time and error list (None when no
errors).  History writes are omitted from the model (no claim concerns
their content). -/
def RatesUpdater.run_update (source : Option String)
    (crypto_fetch : FetchOutcome) (fiat_client : Option FetchOutcome)
    (now : ℤ) : Except String UpdateOutput :=
  let rates := RatesUpdater.all_rates source crypto_fetch fiat_client
  let errors := cryptoErrors source crypto_fetch
    ++ fiatErrors source fiat_client
  if rates = [] then
    .error ("Не удалось получить курсы ни от одного источника. Ошибки: "
      ++ String.intercalate "; " errors)
  else
    .ok { total_rates := rates.length,
          last_refresh := now,
          errors := if errors = [] then none else some errors,
          cache_pairs := RatesStorage.save_rates_cache rates
            (RatesUpdater.all_sources source crypto_fetch fiat_client)
            now }

/-- Crash model for file persistence.  A write procedure is represented
by the list of contents the TARGET file can hold if the process crashes
at any point during the write; file contents are character lists.

`save_json` (core/utils.py lines 45-62, used by
`RateManager._save_rates` and `_save_portfolios`): opens the target
itself with mode "w" — truncating it — and then `json.dump` streams the
serialized payload into it.  A crash before the open leaves the old
content; a crash after it leaves whatever prefix of the new content has
been flushed. -/
def save_json_crash_states (old new : List Char) : List (List Char) :=
  old :: (List.range (new.length + 1)).map (fun n => new.take n)

/-- `RatesStorage._write_atomic` (storage.py lines 33-56): the payload
is first written to a separate temporary file — during which the target
still holds its old content — and then `Path.replace` renames it over
the target in one step, after which the target holds the new content.
The target is never open for writing, so these are its only crash
states. -/
def RatesStorage.write_atomic_crash_states (old new : List Char) :
    List (List Char) :=
  [old, new]

example :
    save_json_crash_states ['a'] ['b', 'c']
      = [['a'], [], ['b'], ['b', 'c']] := by decide

/-! ### Association list lemmas -/

theorem dictGet_mem {α : Type} {m : List (String × α)} {k : String}
    {v : α} (h : dictGet m k = some v) : (k, v) ∈ m := by
  induction m with
  | nil => simp [dictGet] at h
  | cons a rest ih =>
    obtain ⟨k0, v0⟩ := a
    by_cases hk : k0 = k
    · subst hk
      simp [dictGet] at h
      simp [h]
    · simp [dictGet, hk] at h
      exact List.mem_cons_of_mem _ (ih h)

theorem dictGet_insert_self {α : Type} (m : List (String × α))
    (k : String) (v : α) : dictGet (dictInsert m k v) k = some v := by
  induction m with
  | nil => simp [dictInsert, dictGet]
  | cons a rest ih =>
    obtain ⟨k0, v0⟩ := a
    by_cases hk : k0 = k
    · simp [dictInsert, dictGet, hk]
    · simp [dictInsert, dictGet, hk, ih]

theorem dictGet_insert {α : Type} (m : List (String × α))
    (k k1 : String) (v : α) :
    dictGet (dictInsert m k v) k1
      = if k = k1 then some v else dictGet m k1 := by
  induction m with
  | nil => simp [dictInsert, dictGet]
  | cons a rest ih =>
    obtain ⟨k0, v0⟩ := a
    by_cases hk : k0 = k
    · subst hk
      by_cases h1 : k0 = k1 <;> simp [dictInsert, dictGet, h1]
    · by_cases h1 : k0 = k1
      · subst h1
        have hkk : ¬k = k0 := fun hc => hk hc.symm
        simp [dictInsert, dictGet, hk, hkk]
      · simp [dictInsert, dictGet, hk, h1, ih]

theorem dictInsert_dictInsert_same {α : Type} (m : List (String × α))
    (k : String) (v v1 : α) :
    dictInsert (dictInsert m k v) k v1 = dictInsert m k v1 := by
  induction m with
  | nil => simp [dictInsert]
  | cons a rest ih =>
    obtain ⟨k0, v0⟩ := a
    by_cases hk : k0 = k
    · subst hk
      simp [dictInsert]
    · simp [dictInsert, hk, ih]

theorem dictInsert_ne_nil {α : Type} (m : List (String × α))
    (k : String) (v : α) : dictInsert m k v ≠ [] := by
  cases m with
  | nil => simp [dictInsert]
  | cons a rest =>
    obtain ⟨k0, v0⟩ := a
    by_cases hk : k0 = k <;> simp [dictInsert, hk]

theorem dictUpdate_ne_nil {α : Type} (m l : List (String × α))
    (hm : m ≠ []) : dictUpdate m l ≠ [] := by
  induction l generalizing m with
  | nil => simpa [dictUpdate]
  | cons a rest ih =>
    rw [dictUpdate, List.foldl_cons]
    exact ih _ (dictInsert_ne_nil _ _ _)

theorem dictUpdate_eq_nil_iff {α : Type} (m l : List (String × α)) :
    dictUpdate m l = [] ↔ m = [] ∧ l = [] := by
  constructor
  · intro h
    rcases l with _ | ⟨a, rest⟩
    · exact ⟨h, rfl⟩
    · exact absurd h
        (by
          rw [dictUpdate, List.foldl_cons]
          exact dictUpdate_ne_nil _ _ (dictInsert_ne_nil _ _ _))
  · rintro ⟨rfl, rfl⟩
    rfl

theorem dictInsert_of_not_mem {α : Type} {m : List (String × α)}
    {k : String} (v : α) (h : k ∉ m.map Prod.fst) :
    dictInsert m k v = m ++ [(k, v)] := by
  induction m with
  | nil => simp [dictInsert]
  | cons a rest ih =>
    obtain ⟨k0, v0⟩ := a
    simp only [List.map_cons, List.mem_cons] at h
    push_neg at h
    have hk0 : ¬k0 = k := fun hc => h.1 hc.symm
    simp [dictInsert, hk0, ih h.2]

theorem dictUpdate_of_disjoint {α : Type} {l : List (String × α)} :
    ∀ m : List (String × α), (l.map Prod.fst).Nodup →
    (∀ k ∈ l.map Prod.fst, k ∉ m.map Prod.fst) →
    dictUpdate m l = m ++ l := by
  induction l with
  | nil => intro m _ _; simp [dictUpdate]
  | cons a rest ih =>
    intro m hnd hdisj
    obtain ⟨k, v⟩ := a
    simp only [List.map_cons, List.nodup_cons] at hnd
    rw [dictUpdate, List.foldl_cons,
        dictInsert_of_not_mem v (hdisj k (by simp))]
    have : dictUpdate (m ++ [(k, v)]) rest = (m ++ [(k, v)]) ++ rest := by
      refine ih _ hnd.2 ?_
      intro k1 hk1
      simp only [List.map_append, List.mem_append]
      push_neg
      refine ⟨hdisj k1 (by simp [hk1]), ?_⟩
      simp only [List.map_cons, List.map_nil, List.mem_singleton]
      intro hc
      exact hnd.1 (hc ▸ hk1)
    rw [dictUpdate] at this
    rw [this, List.append_assoc]
    rfl

theorem dictUpdate_nil_of_nodup {α : Type} {l : List (String × α)}
    (h : (l.map Prod.fst).Nodup) : dictUpdate [] l = l := by
  simpa using dictUpdate_of_disjoint [] h (by simp)

theorem dictGet_map_const {α : Type} {l : List (String × α)}
    {p : String} (c : String) (hp : p ∈ l.map Prod.fst) :
    dictGet (l.map (fun pr => (pr.1, c))) p = some c := by
  induction l with
  | nil => simp at hp
  | cons a rest ih =>
    obtain ⟨k, v⟩ := a
    by_cases hk : k = p
    · simp [dictGet, hk]
    · simp only [List.map_cons, List.mem_cons] at hp
      rcases hp with hp | hp
      · exact absurd hp.symm hk
      · simp [dictGet, hk, ih hp]

/-! ### Rate manager lemmas -/

theorem get_fallback_rate_pos {A B : String} {r : ℚ}
    (h : RateManager.get_fallback_rate A B = some r) : 0 < r := by
  unfold RateManager.get_fallback_rate at h
  cases hf : dictGet fallback_rates A with
  | none => rw [hf] at h; cases h
  | some inner =>
    rw [hf] at h
    have hmem := dictGet_mem hf
    have hinner := dictGet_mem h
    have htab : ∀ pr ∈ fallback_rates, ∀ q ∈ pr.2, 0 < q.2 := by
      intro pr hpr
      fin_cases hpr <;> (intro q hq; fin_cases hq <;> norm_num)
    exact htab _ hmem _ hinner

theorem get_rate_update_self (rates : RatesMap) (now : ℤ)
    {A B : String} (fb : ℚ) (hAB : A ≠ B) :
    RateManager.get_rate (RateManager.update_rate rates now A B fb) A B
      = some fb := by
  unfold RateManager.get_rate RateManager.update_rate
  rw [if_neg hAB, dictGet_insert_self]

/-- Any successful `get_or_fetch_rate` leaves a state from which
`get_rate` reproduces the returned rate. -/
theorem get_or_fetch_rate_ok {rates : RatesMap} {now : ℤ}
    {A B : String} {res : FetchResult}
    (h : RateManager.get_or_fetch_rate rates now A B = .ok res) :
    RateManager.get_rate res.rates A B = some res.rate := by
  unfold RateManager.get_or_fetch_rate at h
  have hfb : ∀ hAB : A ≠ B,
      RateManager.fetch_fallback rates now A B = .ok res →
      RateManager.get_rate res.rates A B = some res.rate := by
    intro hAB hf
    unfold RateManager.fetch_fallback at hf
    cases hg : RateManager.get_fallback_rate A B with
    | none => rw [hg] at hf; cases hf
    | some fb =>
      rw [hg] at hf
      dsimp only at hf
      cases hf
      exact get_rate_update_self rates now fb hAB
  cases hg : RateManager.get_rate rates A B with
  | some r =>
    rw [hg] at h
    dsimp only at h
    by_cases hfr : RateManager.is_rate_fresh rates now A B none = true
    · rw [if_pos hfr] at h
      cases h
      exact hg
    · rw [if_neg hfr] at h
      have hAB : A ≠ B := by
        intro hc
        exact hfr (by simp [RateManager.is_rate_fresh, hc])
      exact hfb hAB h
  | none =>
    rw [hg] at h
    dsimp only at h
    have hAB : A ≠ B := by
      intro hc
      rw [RateManager.get_rate, if_pos hc] at hg
      cases hg
    exact hfb hAB h

/-! ### Claim C1 -/

/-- Claim C1 counterexample: on a wallet with balance 100, withdrawing
150 raises the builtin ValueError (whose message interpolates the
available balance 100 and the requested 150), not the
InsufficientFundsError class the claim names — that class is raised by
`sell_currency`, not by `Wallet.withdraw`. -/
theorem withdraw_raises_valueerror_not_insufficientfunds :
    Wallet.withdraw ⟨"USD", 100⟩ 150
      = .error (.valueError (.insufficientMsg 100 150))
  ∧ PyExc.isInsufficientFundsError
      (.valueError (.insufficientMsg 100 150)) = false := by
  constructor
  · norm_num [Wallet.withdraw]
  · rfl

/-- Claim C1 (amended): for every wallet with non-negative balance B and
every amount > B, `withdraw` fails with a ValueError carrying the
available balance and the requested amount in its message, and the
balance is unchanged (the subtraction sits after the raising check, so
an error return is the only outcome and no mutation happens). -/
theorem withdraw_insufficient_balance_behaviour (w : Wallet) (amount : ℚ)
    (hb : 0 ≤ w.balance) (h : w.balance < amount) :
    Wallet.withdraw w amount
      = .error (.valueError (.insufficientMsg w.balance amount)) := by
  unfold Wallet.withdraw
  rw [if_neg (not_le.mpr (lt_of_le_of_lt hb h)), if_pos h]

/-- Witness for C1 at balance 100, amount 150. -/
theorem withdraw_insufficient_balance_behaviour_witness :
    (0 : ℚ) ≤ 100 ∧ (100 : ℚ) < 150 ∧
    Wallet.withdraw ⟨"USD", 100⟩ 150
      = .error (.valueError (.insufficientMsg 100 150)) :=
  ⟨by norm_num, by norm_num,
   withdraw_insufficient_balance_behaviour ⟨"USD", 100⟩ 150
     (by norm_num) (by norm_num)⟩

/-! ### Claim C4 -/

/-- Claim C4 counterexample: a cached entry whose `updated_at` is
exactly `now - TTL` (here updated at 0, queried at now = 300 with the
default TTL of 300 s) is reported FRESH by `is_rate_fresh`, contradicting
the claim that such an entry is stale. -/
theorem fresh_at_exactly_ttl_boundary :
    RateManager.is_rate_fresh [("BTC_USD", ⟨43500, some 0⟩)] 300
      "BTC" "USD" none = true := by decide

/-- Claim C4 (amended): for a cached direct pair with a parseable
timestamp, freshness under the default TTL is exactly the condition
age ≤ 300 s: an entry whose `updated_at` is exactly `now - TTL` is
fresh, and an entry one second older is stale. -/
theorem is_rate_fresh_iff_age_le_ttl (rates : RatesMap) (now t : ℤ)
    (A B : String) (r : ℚ) (hAB : A ≠ B)
    (hdir : dictGet rates (rateKey A B) = some ⟨r, some t⟩) :
    (RateManager.is_rate_fresh rates now A B none = true ↔
      now - t ≤ 300) := by
  simp [RateManager.is_rate_fresh, hAB, hdir, rates_ttl_seconds]

/-- Witness for C4: entry updated at 10, queried at 310 (age exactly
300) — the iff makes it fresh; at 311 it would be stale. -/
theorem is_rate_fresh_iff_age_le_ttl_witness :
    ("EUR" : String) ≠ "USD" ∧
    dictGet ([("EUR_USD", ⟨1, some 10⟩)] : RatesMap) (rateKey "EUR" "USD")
      = some ⟨1, some 10⟩ ∧
    (RateManager.is_rate_fresh ([("EUR_USD", ⟨1, some 10⟩)] : RatesMap) 310
      "EUR" "USD" none = true ↔ (310 : ℤ) - 10 ≤ 300) :=
  ⟨by decide, by decide,
   is_rate_fresh_iff_age_le_ttl
     ([("EUR_USD", ⟨1, some 10⟩)] : RatesMap) 310 10
     "EUR" "USD" 1 (by decide) (by decide)⟩

/-! ### Claim C10 -/

/-- Claim C10: `Wallet.__init__` silently clamps a negative starting
balance to 0 instead of raising (it is a total function), so every
wallet built by `_load_portfolios` from a stored file — even one holding
a negative balance — satisfies the non-negativity invariant, with no
error reported. -/
theorem wallet_init_clamps_negative (code : String) (b : ℚ)
    (hb : b < 0) :
    (Wallet.init code b).balance = 0
  ∧ ∀ stored : List (String × ℚ),
      ∀ cw ∈ PortfolioManager.load_wallets stored, 0 ≤ cw.2.balance := by
  constructor
  · simp [Wallet.init, max_eq_left hb.le]
  · intro stored cw hcw
    simp only [PortfolioManager.load_wallets, List.mem_map] at hcw
    obtain ⟨pr, _, rfl⟩ := hcw
    simp [Wallet.init, le_max_left]

/-- Witness for C10 at stored balance -5. -/
theorem wallet_init_clamps_negative_witness :
    (-5 : ℚ) < 0 ∧
    ((Wallet.init "USD" (-5)).balance = 0
      ∧ ∀ stored : List (String × ℚ),
          ∀ cw ∈ PortfolioManager.load_wallets stored,
            0 ≤ cw.2.balance) :=
  ⟨by norm_num, wallet_init_clamps_negative "USD" (-5) (by norm_num)⟩

/-! ### Claim C5 -/

/-- Claim C5: when only the direct pair A_B is cached (and fresh, with a
positive rate), `get_or_fetch_rate(A,B)` serves the stored rate and
`get_or_fetch_rate(B,A)` derives exactly its multiplicative inverse from
the same entry — no fallback invocation, no cache write in either
direction — and the product is exactly 1 (hence within any floating
tolerance). -/
theorem reciprocal_derivation_law (rates : RatesMap) (now t : ℤ)
    (A B : String) (r : ℚ) (hAB : A ≠ B)
    (hdir : dictGet rates (rateKey A B) = some ⟨r, some t⟩)
    (hrev : dictGet rates (rateKey B A) = none)
    (hfresh : now - t ≤ 300) (hr : 0 < r) :
    RateManager.get_or_fetch_rate rates now A B
      = .ok ⟨r, rates, false, false⟩
  ∧ RateManager.get_or_fetch_rate rates now B A
      = .ok ⟨1 / r, rates, false, false⟩
  ∧ r * (1 / r) = 1 := by
  have hBA : B ≠ A := fun hc => hAB hc.symm
  have hgAB : RateManager.get_rate rates A B = some r := by
    simp [RateManager.get_rate, hAB, hdir]
  have hgBA : RateManager.get_rate rates B A = some (1 / r) := by
    simp [RateManager.get_rate, hBA, hrev, hdir]
  have hfAB : RateManager.is_rate_fresh rates now A B none = true := by
    simp [RateManager.is_rate_fresh, hAB, hdir, rates_ttl_seconds, hfresh]
  have hfBA : RateManager.is_rate_fresh rates now B A none = true := by
    simp [RateManager.is_rate_fresh, hBA, hrev, hdir, rates_ttl_seconds,
      hfresh]
  refine ⟨?_, ?_, mul_one_div_cancel hr.ne'⟩
  · unfold RateManager.get_or_fetch_rate
    rw [hgAB]
    dsimp only
    rw [if_pos hfAB]
  · unfold RateManager.get_or_fetch_rate
    rw [hgBA]
    dsimp only
    rw [if_pos hfBA]

/-- Concrete cache with a single fresh BTC_USD entry, used by several
witnesses. -/
def btcRates : RatesMap := [("BTC_USD", { rate := 43500, updated_at := some 0 })]

/-- Witness for C5 on the BTC_USD cache at rate 43500. -/
theorem reciprocal_derivation_law_witness :
    ("BTC" : String) ≠ "USD" ∧
    dictGet btcRates (rateKey "BTC" "USD") = some ⟨43500, some 0⟩ ∧
    dictGet btcRates (rateKey "USD" "BTC") = none ∧
    (100 : ℤ) - 0 ≤ 300 ∧ (0 : ℚ) < 43500 ∧
    (RateManager.get_or_fetch_rate btcRates 100 "BTC" "USD"
        = .ok ⟨43500, btcRates, false, false⟩
      ∧ RateManager.get_or_fetch_rate btcRates 100 "USD" "BTC"
        = .ok ⟨1 / 43500, btcRates, false, false⟩
      ∧ (43500 : ℚ) * (1 / 43500) = 1) :=
  ⟨by decide, by decide, by decide, by decide, by norm_num,
   reciprocal_derivation_law btcRates 100 0 "BTC" "USD" 43500
     (by decide) (by decide) (by decide) (by decide) (by norm_num)⟩

/-! ### Claim C6 -/

/-- Concrete cache for the C6 counterexample: EUR_USD stored at time 0
with rate 2 (differing from the fallback table value 1.09). -/
def eurRates : RatesMap := [("EUR_USD", { rate := 2, updated_at := some 0 })]

/-- Claim C6 counterexample: first call at t=299 is a fresh cache hit
returning the stored rate 2; a second call at t=500 — only 201 s after
the first call, well within the 300 s TTL window after it — finds the
entry stale (age 500 > 300), invokes the fallback, returns 1.09 ≠ 2 and
rewrites the cache.  So "a second call within the TTL window after a
successful first call" can re-fetch and change the rate when the first
call was a hit on an older (but then-fresh) entry. -/
theorem second_call_within_window_refetches :
    RateManager.get_or_fetch_rate eurRates 299 "EUR" "USD"
      = .ok ⟨2, eurRates, false, false⟩
  ∧ RateManager.get_or_fetch_rate eurRates 500 "EUR" "USD"
      = .ok ⟨109/100, dictInsert eurRates "EUR_USD" ⟨109/100, some 500⟩,
             true, true⟩
  ∧ (109 : ℚ)/100 ≠ 2
  ∧ (500 : ℤ) - 299 ≤ 300 := by
  refine ⟨by decide, by rfl, by norm_num, by norm_num⟩

/-- Claim C6 (amended): a second `get_or_fetch_rate` call made while the
entry left by a successful first call is still fresh (in particular,
within the TTL window after a first call that wrote the cache) returns
the identical rate, invokes no fallback, and performs no cache write:
the fresh cached entry is served as-is and the rates dict is unchanged. -/
theorem second_call_while_fresh_idempotent (rates : RatesMap)
    (now1 now2 : ℤ) (A B : String) (res : FetchResult)
    (h1 : RateManager.get_or_fetch_rate rates now1 A B = .ok res)
    (h2 : RateManager.is_rate_fresh res.rates now2 A B none = true) :
    RateManager.get_or_fetch_rate res.rates now2 A B
      = .ok ⟨res.rate, res.rates, false, false⟩ := by
  have hg := get_or_fetch_rate_ok h1
  unfold RateManager.get_or_fetch_rate
  rw [hg]
  dsimp only
  rw [if_pos h2]

/-- Witness for C6: an empty cache forces the first call (at t=0) to use
the fallback and write BTC_USD; the second call at t=200 (age 200 ≤ 300)
serves the identical rate with no fallback and no write. -/
theorem second_call_while_fresh_idempotent_witness :
    RateManager.get_or_fetch_rate [] 0 "BTC" "USD"
      = .ok (⟨43500, [("BTC_USD", ⟨43500, some 0⟩)], true, true⟩
             : FetchResult) ∧
    RateManager.is_rate_fresh
      (FetchResult.rates ⟨43500, [("BTC_USD", ⟨43500, some 0⟩)], true, true⟩)
      200 "BTC" "USD" none = true ∧
    RateManager.get_or_fetch_rate
      (FetchResult.rates ⟨43500, [("BTC_USD", ⟨43500, some 0⟩)], true, true⟩)
      200 "BTC" "USD"
      = .ok ⟨FetchResult.rate
               ⟨43500, [("BTC_USD", ⟨43500, some 0⟩)], true, true⟩,
             FetchResult.rates
               ⟨43500, [("BTC_USD", ⟨43500, some 0⟩)], true, true⟩,
             false, false⟩ :=
  ⟨by decide, by decide,
   second_call_while_fresh_idempotent [] 0 200 "BTC" "USD"
     ⟨43500, [("BTC_USD", ⟨43500, some 0⟩)], true, true⟩
     (by decide) (by decide)⟩

/-! ### Claim C8 -/

/-- Claim C8 counterexample: neither `update_rate` nor
`save_rates_cache` validates the rate it stores — both happily store a
rate of 0, which violates the claimed rate > 0 invariant that reciprocal
derivation (1/rate) relies on. -/
theorem store_operations_accept_nonpositive_rate :
    dictGet (RateManager.update_rate [] 0 "BTC" "USD" 0) "BTC_USD"
      = some ⟨0, some 0⟩
  ∧ RatesStorage.save_rates_cache [("BTC_USD", 0)] [] 7
      = [("BTC_USD", ⟨0, 7, "Unknown"⟩)]
  ∧ ¬ (0 : ℚ) > 0 := by
  refine ⟨by decide, by decide, by norm_num⟩

/-- Claim C8 (amended): the storing operations perform no positivity
validation (they store whatever they are given); the invariant instead
holds for every rate the RESOLVER stores, because the fallback table
contains only positive rates: starting from a cache in which every
entry has a positive rate, any successful `get_or_fetch_rate` returns a
positive rate — so the reciprocal derivation 1/rate is safe — and
leaves a cache in which every entry still has a positive rate. -/
theorem resolver_preserves_rate_positivity (rates : RatesMap) (now : ℤ)
    (A B : String) (res : FetchResult)
    (hinv : ∀ k e, dictGet rates k = some e → 0 < e.rate)
    (hok : RateManager.get_or_fetch_rate rates now A B = .ok res) :
    0 < res.rate ∧ ∀ k e, dictGet res.rates k = some e → 0 < e.rate := by
  unfold RateManager.get_or_fetch_rate at hok
  have hfb : RateManager.fetch_fallback rates now A B = .ok res →
      0 < res.rate ∧ ∀ k e, dictGet res.rates k = some e → 0 < e.rate := by
    intro hf
    unfold RateManager.fetch_fallback at hf
    cases hg : RateManager.get_fallback_rate A B with
    | none => rw [hg] at hf; cases hf
    | some fb =>
      rw [hg] at hf
      dsimp only at hf
      cases hf
      have hpos := get_fallback_rate_pos hg
      refine ⟨hpos, ?_⟩
      intro k e he
      rw [RateManager.update_rate, dictGet_insert] at he
      by_cases hk : rateKey A B = k
      · rw [if_pos hk] at he
        cases he
        exact hpos
      · rw [if_neg hk] at he
        exact hinv k e he
  have hrpos : ∀ r, RateManager.get_rate rates A B = some r → 0 < r := by
    intro r hg
    unfold RateManager.get_rate at hg
    by_cases hAB : A = B
    · rw [if_pos hAB] at hg
      cases hg
      norm_num
    · rw [if_neg hAB] at hg
      cases hd : dictGet rates (rateKey A B) with
      | some e =>
        rw [hd] at hg
        dsimp only at hg
        cases hg
        exact hinv _ _ hd
      | none =>
        rw [hd] at hg
        dsimp only at hg
        cases hrv : dictGet rates (rateKey B A) with
        | some e =>
          rw [hrv] at hg
          dsimp only at hg
          cases hg
          exact one_div_pos.mpr (hinv _ _ hrv)
        | none =>
          rw [hrv] at hg
          cases hg
  cases hg : RateManager.get_rate rates A B with
  | some r =>
    rw [hg] at hok
    dsimp only at hok
    by_cases hfr : RateManager.is_rate_fresh rates now A B none = true
    · rw [if_pos hfr] at hok
      cases hok
      exact ⟨hrpos r hg, hinv⟩
    · rw [if_neg hfr] at hok
      exact hfb hok
  | none =>
    rw [hg] at hok
    dsimp only at hok
    exact hfb hok

/-- Witness for C8: from the empty cache (vacuously positive), a
fallback resolution of BTC_USD returns 43500 > 0 and leaves an all-
positive cache. -/
theorem resolver_preserves_rate_positivity_witness :
    (∀ k e, dictGet ([] : RatesMap) k = some e → 0 < e.rate) ∧
    RateManager.get_or_fetch_rate [] 5 "BTC" "USD"
      = .ok (⟨43500, [("BTC_USD", ⟨43500, some 5⟩)], true, true⟩
             : FetchResult) ∧
    (0 < FetchResult.rate
        (⟨43500, [("BTC_USD", ⟨43500, some 5⟩)], true, true⟩ : FetchResult)
      ∧ ∀ k e,
          dictGet (FetchResult.rates
            (⟨43500, [("BTC_USD", ⟨43500, some 5⟩)], true, true⟩
             : FetchResult)) k = some e → 0 < e.rate) :=
  have hinv : ∀ k e, dictGet ([] : RatesMap) k = some e → 0 < e.rate :=
    fun k e he => by simp [dictGet] at he
  ⟨hinv, by decide,
   resolver_preserves_rate_positivity [] 5 "BTC" "USD"
     ⟨43500, [("BTC_USD", ⟨43500, some 5⟩)], true, true⟩
     hinv (by decide)⟩

/-! ### Claim C2 -/

/-- Claim C2: for a valid, registered currency and a positive amount,
`sell_currency` fails with WalletNotFoundError when the portfolio holds
no wallet for the currency, and with InsufficientFundsError (carrying
the available balance and the required amount) when the wallet balance
is below the amount.  Both conclusions hold for EVERY rates dict —
including any on which rate resolution would fail — and return the state
unchanged, because both checks sit before the `get_or_fetch_rate` call. -/
theorem sell_checks_precede_rate_resolution (p : Portfolio)
    (rates : RatesMap) (now : ℤ) (currency code : String) (amount : ℚ)
    (h0 : 0 < amount)
    (hv : validate_currency_code currency = .ok code)
    (hc : get_currency code = .ok code) :
    (p.get_wallet code = none →
      PortfolioManager.sell_currency ⟨p, rates⟩ now currency amount
        = (.error (.walletNotFoundError code), ⟨p, rates⟩))
  ∧ (∀ w, p.get_wallet code = some w → w.balance < amount →
      PortfolioManager.sell_currency ⟨p, rates⟩ now currency amount
        = (.error (.insufficientFundsError code w.balance amount),
           ⟨p, rates⟩)) := by
  have hn0 : ¬ amount ≤ 0 := not_le.mpr h0
  constructor
  · intro hw
    simp [PortfolioManager.sell_currency, hn0, hv, hc, hw]
  · intro w hw hlt
    simp [PortfolioManager.sell_currency, hn0, hv, hc, hw, hlt]

/-- Witness for C2: a portfolio holding one BTC wallet with balance 1;
selling 2 BTC hits the insufficiency branch, and the wallet-missing
branch is exhibited on the ETH-free portfolio side of the implications. -/
theorem sell_checks_precede_rate_resolution_witness :
    (0 : ℚ) < 2 ∧
    validate_currency_code "BTC" = .ok "BTC" ∧
    get_currency "BTC" = .ok "BTC" ∧
    ((Portfolio.get_wallet ⟨[("BTC", ⟨"BTC", 1⟩)]⟩ "BTC" = none →
        PortfolioManager.sell_currency ⟨⟨[("BTC", ⟨"BTC", 1⟩)]⟩, []⟩ 0
          "BTC" 2
          = (.error (.walletNotFoundError "BTC"),
             ⟨⟨[("BTC", ⟨"BTC", 1⟩)]⟩, []⟩))
      ∧ (∀ w, Portfolio.get_wallet ⟨[("BTC", ⟨"BTC", 1⟩)]⟩ "BTC" = some w →
          w.balance < 2 →
          PortfolioManager.sell_currency ⟨⟨[("BTC", ⟨"BTC", 1⟩)]⟩, []⟩ 0
            "BTC" 2
            = (.error (.insufficientFundsError "BTC" w.balance 2),
               ⟨⟨[("BTC", ⟨"BTC", 1⟩)]⟩, []⟩))) :=
  ⟨by norm_num, by decide, by decide,
   sell_checks_precede_rate_resolution ⟨[("BTC", ⟨"BTC", 1⟩)]⟩ [] 0
     "BTC" "BTC" 2 (by norm_num) (by decide) (by decide)⟩

/-! ### Claim C3 -/

/-- Claim C3: with valid inputs, if rate resolution raises
ApiRequestError then both buy (for EVERY portfolio, wallet present or
not, any balance) and sell (with its own preconditions: an existing
wallet holding at least the amount) raise RateUnavailableError — the
translation happens at the ledger boundary — and the state, wallet
balances included, is returned unchanged; if rate resolution succeeds
with rate r and rates dict R, the mutation is applied: buy deposits the
amount into the existing wallet, or into a freshly created zero wallet
when none existed (lazy creation), and sell withdraws it, each
returning (r, amount * r) with the portfolio updated accordingly and
the rates dict R. -/
theorem trade_applies_rate_then_mutation (p : Portfolio)
    (rates : RatesMap) (now : ℤ) (currency code : String) (amount : ℚ)
    (h0 : 0 < amount)
    (hv : validate_currency_code currency = .ok code)
    (hc : get_currency code = .ok code) :
    (∀ a b, RateManager.get_or_fetch_rate rates now code "USD"
        = .error (.apiRequestError a b) →
      PortfolioManager.buy_currency ⟨p, rates⟩ now currency amount
        = (.error (.rateUnavailableError code "USD"), ⟨p, rates⟩)
      ∧ (∀ w, p.get_wallet code = some w → amount ≤ w.balance →
          PortfolioManager.sell_currency ⟨p, rates⟩ now currency amount
            = (.error (.rateUnavailableError code "USD"), ⟨p, rates⟩)))
  ∧ (∀ res, RateManager.get_or_fetch_rate rates now code "USD"
        = .ok res →
      (∀ w, p.get_wallet code = some w →
        PortfolioManager.buy_currency ⟨p, rates⟩ now currency amount
          = (.ok ⟨res.rate, amount * res.rate⟩,
             ⟨⟨dictInsert p.wallets code
                 { w with balance := w.balance + amount }⟩, res.rates⟩))
      ∧ (p.get_wallet code = none →
        PortfolioManager.buy_currency ⟨p, rates⟩ now currency amount
          = (.ok ⟨res.rate, amount * res.rate⟩,
             ⟨⟨dictInsert p.wallets code
                 { Wallet.init code 0 with
                   balance := (Wallet.init code 0).balance + amount }⟩,
              res.rates⟩))
      ∧ (∀ w, p.get_wallet code = some w → amount ≤ w.balance →
          PortfolioManager.sell_currency ⟨p, rates⟩ now currency amount
            = (.ok ⟨res.rate, amount * res.rate⟩,
               ⟨⟨dictInsert p.wallets code
                   { w with balance := w.balance - amount }⟩,
                res.rates⟩))) := by
  have hn0 : ¬ amount ≤ 0 := not_le.mpr h0
  refine ⟨?_, ?_⟩
  · intro a b hrate
    refine ⟨?_, ?_⟩
    · simp [PortfolioManager.buy_currency, hn0, hv, hc, hrate]
    · intro w hw hbal
      have hnlt : ¬ w.balance < amount := not_lt.mpr hbal
      simp [PortfolioManager.sell_currency, hn0, hv, hc, hw, hnlt, hrate]
  · intro res hres
    refine ⟨?_, ?_, ?_⟩
    · intro w hw
      simp [PortfolioManager.buy_currency, hn0, hv, hc, hres, hw,
        Wallet.deposit]
    · intro hw
      have hw' : dictGet p.wallets code = none := hw
      simp [PortfolioManager.buy_currency, hn0, hv, hc, hres, hw',
        Wallet.deposit, Portfolio.get_wallet, dictGet_insert_self,
        dictInsert_dictInsert_same]
    · intro w hw hbal
      have hnlt : ¬ w.balance < amount := not_lt.mpr hbal
      simp [PortfolioManager.sell_currency, hn0, hv, hc, hres, hw, hnlt,
        Wallet.withdraw]

/-- Witness for C3: portfolio with a 5-BTC wallet, empty rates cache,
buying and selling 2 BTC; resolution succeeds via the fallback at rate
43500 writing BTC_USD, the buy deposits to 7, the sell withdraws to 3,
and the lazy-creation branch of buy is part of the instantiated
conclusion. -/
theorem trade_applies_rate_then_mutation_witness :
    (0 : ℚ) < 2 ∧
    validate_currency_code "BTC" = .ok "BTC" ∧
    get_currency "BTC" = .ok "BTC" ∧
    ((∀ a b, RateManager.get_or_fetch_rate [] 0 "BTC" "USD"
        = .error (.apiRequestError a b) →
      PortfolioManager.buy_currency ⟨⟨[("BTC", ⟨"BTC", 5⟩)]⟩, []⟩ 0
          "BTC" 2
        = (.error (.rateUnavailableError "BTC" "USD"),
           ⟨⟨[("BTC", ⟨"BTC", 5⟩)]⟩, []⟩)
      ∧ (∀ w, Portfolio.get_wallet ⟨[("BTC", ⟨"BTC", 5⟩)]⟩ "BTC" = some w →
          (2 : ℚ) ≤ w.balance →
          PortfolioManager.sell_currency ⟨⟨[("BTC", ⟨"BTC", 5⟩)]⟩, []⟩ 0
            "BTC" 2
          = (.error (.rateUnavailableError "BTC" "USD"),
             ⟨⟨[("BTC", ⟨"BTC", 5⟩)]⟩, []⟩)))
    ∧ (∀ res, RateManager.get_or_fetch_rate [] 0 "BTC" "USD"
        = .ok res →
      (∀ w, Portfolio.get_wallet ⟨[("BTC", ⟨"BTC", 5⟩)]⟩ "BTC" = some w →
        PortfolioManager.buy_currency ⟨⟨[("BTC", ⟨"BTC", 5⟩)]⟩, []⟩ 0
            "BTC" 2
          = (.ok ⟨res.rate, 2 * res.rate⟩,
             ⟨⟨dictInsert [("BTC", ⟨"BTC", 5⟩)] "BTC"
                 { w with balance := w.balance + 2 }⟩, res.rates⟩))
      ∧ (Portfolio.get_wallet ⟨[("BTC", ⟨"BTC", 5⟩)]⟩ "BTC" = none →
        PortfolioManager.buy_currency ⟨⟨[("BTC", ⟨"BTC", 5⟩)]⟩, []⟩ 0
            "BTC" 2
          = (.ok ⟨res.rate, 2 * res.rate⟩,
             ⟨⟨dictInsert [("BTC", ⟨"BTC", 5⟩)] "BTC"
                 { Wallet.init "BTC" 0 with
                   balance := (Wallet.init "BTC" 0).balance + 2 }⟩,
              res.rates⟩))
      ∧ (∀ w, Portfolio.get_wallet ⟨[("BTC", ⟨"BTC", 5⟩)]⟩ "BTC" = some w →
          (2 : ℚ) ≤ w.balance →
          PortfolioManager.sell_currency ⟨⟨[("BTC", ⟨"BTC", 5⟩)]⟩, []⟩ 0
            "BTC" 2
          = (.ok ⟨res.rate, 2 * res.rate⟩,
             ⟨⟨dictInsert [("BTC", ⟨"BTC", 5⟩)] "BTC"
                 { w with balance := w.balance - 2 }⟩, res.rates⟩)))) :=
  ⟨by norm_num, by decide, by decide,
   trade_applies_rate_then_mutation ⟨[("BTC", ⟨"BTC", 5⟩)]⟩ [] 0
     "BTC" "BTC" 2 (by norm_num) (by decide) (by decide)⟩

/-! ### Updater lemmas -/

theorem save_rates_cache_map (R : List (String × ℚ))
    (sources : List (String × String)) (now : ℤ) (src : String)
    (hwf : ∀ pr ∈ R, (pySplitUnderscore pr.1).length = 2)
    (hsrc : ∀ pr ∈ R, dictGet sources pr.1 = some src) :
    RatesStorage.save_rates_cache R sources now
      = R.map (fun pr => (pr.1, ⟨pr.2, now, src⟩)) := by
  induction R with
  | nil => rfl
  | cons a rest ih =>
    have ha := hwf a (List.mem_cons_self a rest)
    have hs := hsrc a (List.mem_cons_self a rest)
    have ihr := ih (fun pr hpr => hwf pr (List.mem_cons_of_mem _ hpr))
      (fun pr hpr => hsrc pr (List.mem_cons_of_mem _ hpr))
    simp only [RatesStorage.save_rates_cache] at ihr ⊢
    rw [List.filterMap_cons]
    simp [ha, hs, ihr]

theorem all_rates_eq_nil_iff (source : Option String)
    (crypto_fetch : FetchOutcome) (fiat_client : Option FetchOutcome) :
    RatesUpdater.all_rates source crypto_fetch fiat_client = []
      ↔ cryptoRates source crypto_fetch = []
        ∧ fiatRates source fiat_client = [] := by
  unfold RatesUpdater.all_rates
  rw [dictUpdate_eq_nil_iff, dictUpdate_eq_nil_iff]
  simp

theorem map_fst_map_pair {α : Type} (R : List (String × α)) (c : String) :
    (R.map (fun pr => (pr.1, c))).map Prod.fst = R.map Prod.fst := by
  simp [List.map_map]

/-! ### Claim C7 -/

/-- Claim C7: `run_update` raises exactly when no selected provider
contributes any rate (a provider that is unselected, missing, failing,
or returning an empty dict contributes none); and in the mixed outcome
where one provider returns the pair dict R and the other raises with
message e, it returns total_rates = |R|, the single collected error
string of the failed provider, and a cache holding exactly the pairs of
R stamped with the succeeding provider as source.  R is assumed to have
unique, well-formed (single-underscore) pair keys, as every provider
dict does. -/
theorem run_update_failure_semantics (R : List (String × ℚ))
    (e : String) (now : ℤ)
    (hne : R ≠ [])
    (hnodup : (R.map Prod.fst).Nodup)
    (hwf : ∀ pr ∈ R, (pySplitUnderscore pr.1).length = 2) :
    (∀ (source : Option String) (crypto_fetch : FetchOutcome)
        (fiat_client : Option FetchOutcome) (now2 : ℤ),
      (∃ msg, RatesUpdater.run_update source crypto_fetch fiat_client now2
          = .error msg)
        ↔ (cryptoRates source crypto_fetch = []
            ∧ fiatRates source fiat_client = []))
  ∧ RatesUpdater.run_update none (.ok R) (some (.error e)) now
      = .ok ⟨R.length, now,
             some ["Failed to fetch from ExchangeRate-API: " ++ e],
             R.map (fun pr => (pr.1, ⟨pr.2, now, "CoinGecko"⟩))⟩
  ∧ RatesUpdater.run_update none (.error e) (some (.ok R)) now
      = .ok ⟨R.length, now,
             some ["Failed to fetch from CoinGecko: " ++ e],
             R.map (fun pr => (pr.1, ⟨pr.2, now, "ExchangeRate-API"⟩))⟩ := by
  refine ⟨?_, ?_, ?_⟩
  · intro source crypto_fetch fiat_client now2
    constructor
    · rintro ⟨msg, hmsg⟩
      by_cases h : RatesUpdater.all_rates source crypto_fetch fiat_client
          = []
      · exact (all_rates_eq_nil_iff source crypto_fetch fiat_client).mp h
      · simp [RatesUpdater.run_update, h] at hmsg
    · intro hcf
      have h : RatesUpdater.all_rates source crypto_fetch fiat_client
          = [] :=
        (all_rates_eq_nil_iff source crypto_fetch fiat_client).mpr hcf
      refine ⟨"Не удалось получить курсы ни от одного источника. Ошибки: "
        ++ String.intercalate "; " (cryptoErrors source crypto_fetch
          ++ fiatErrors source fiat_client), ?_⟩
      simp [RatesUpdater.run_update, h]
  · have hc : cryptoRates none (.ok R) = R := by
      simp [cryptoRates, cryptoSelected]
    have hf : fiatRates none (some (.error e)) = [] := by
      simp [fiatRates, fiatSelected]
    have hall : RatesUpdater.all_rates none (.ok R) (some (.error e))
        = R := by
      unfold RatesUpdater.all_rates
      rw [hc, hf]
      exact dictUpdate_nil_of_nodup hnodup
    have hsources :
        RatesUpdater.all_sources none (.ok R) (some (.error e))
          = R.map (fun pr => (pr.1, "CoinGecko")) := by
      unfold RatesUpdater.all_sources
      rw [hc, hf]
      simp only [List.map_nil]
      exact dictUpdate_nil_of_nodup
        ((map_fst_map_pair R "CoinGecko").symm ▸ hnodup)
    have hsrc : ∀ pr ∈ R,
        dictGet (R.map (fun pr => (pr.1, "CoinGecko"))) pr.1
          = some "CoinGecko" := by
      intro pr hpr
      exact dictGet_map_const _ (List.mem_map_of_mem _ hpr)
    have hcache := save_rates_cache_map R _ now "CoinGecko" hwf hsrc
    simp [RatesUpdater.run_update, hall, hne, hsources, hcache,
      cryptoErrors, fiatErrors, cryptoSelected, fiatSelected]
  · have hc : cryptoRates none (.error e) = [] := by
      simp [cryptoRates, cryptoSelected]
    have hf : fiatRates none (some (.ok R)) = R := by
      simp [fiatRates, fiatSelected]
    have hall : RatesUpdater.all_rates none (.error e) (some (.ok R))
        = R := by
      unfold RatesUpdater.all_rates
      rw [hc, hf]
      exact dictUpdate_nil_of_nodup hnodup
    have hsources :
        RatesUpdater.all_sources none (.error e) (some (.ok R))
          = R.map (fun pr => (pr.1, "ExchangeRate-API")) := by
      unfold RatesUpdater.all_sources
      rw [hc, hf]
      simp only [List.map_nil]
      exact dictUpdate_nil_of_nodup
        ((map_fst_map_pair R "ExchangeRate-API").symm ▸ hnodup)
    have hsrc : ∀ pr ∈ R,
        dictGet (R.map (fun pr => (pr.1, "ExchangeRate-API"))) pr.1
          = some "ExchangeRate-API" := by
      intro pr hpr
      exact dictGet_map_const _ (List.mem_map_of_mem _ hpr)
    have hcache := save_rates_cache_map R _ now "ExchangeRate-API" hwf hsrc
    simp [RatesUpdater.run_update, hall, hne, hsources, hcache,
      cryptoErrors, fiatErrors, cryptoSelected, fiatSelected]

/-- The five-pair provider dict of the C7 witness scenario. -/
def fivePairs : List (String × ℚ) :=
  [("BTC_USD", 43500), ("ETH_USD", 2800), ("LTC_USD", 100),
   ("XRP_USD", 1), ("ADA_USD", 2)]

/-- Witness for C7: CoinGecko returns 5 pairs, ExchangeRate-API raises
"boom": run_update(None) returns total_rates = 5, the one collected
error, and a cache holding exactly the 5 fetched pairs. -/
theorem run_update_failure_semantics_witness :
    fivePairs ≠ [] ∧
    (fivePairs.map Prod.fst).Nodup ∧
    (∀ pr ∈ fivePairs, (pySplitUnderscore pr.1).length = 2) ∧
    ((∀ (source : Option String) (crypto_fetch : FetchOutcome)
        (fiat_client : Option FetchOutcome) (now2 : ℤ),
      (∃ msg, RatesUpdater.run_update source crypto_fetch fiat_client now2
          = .error msg)
        ↔ (cryptoRates source crypto_fetch = []
            ∧ fiatRates source fiat_client = []))
    ∧ RatesUpdater.run_update none (.ok fivePairs)
        (some (.error "boom")) 7
      = .ok ⟨fivePairs.length, 7,
             some ["Failed to fetch from ExchangeRate-API: " ++ "boom"],
             fivePairs.map (fun pr => (pr.1, ⟨pr.2, 7, "CoinGecko"⟩))⟩
    ∧ RatesUpdater.run_update none (.error "boom")
        (some (.ok fivePairs)) 7
      = .ok ⟨fivePairs.length, 7,
             some ["Failed to fetch from CoinGecko: " ++ "boom"],
             fivePairs.map
               (fun pr => (pr.1, ⟨pr.2, 7, "ExchangeRate-API"⟩))⟩) :=
  ⟨by decide, by decide, by decide,
   run_update_failure_semantics fivePairs "boom" 7
     (by decide) (by decide) (by decide)⟩

/-! ### Claim C9 -/

/-- Claim C9 counterexample: `save_json` — the persistence routine the
rate resolver uses for the cache after a fallback resolution
(`RateManager._save_rates` in usecases.py calls core/utils.save_json) —
overwrites the target in place, so a crash mid-write can leave content
that is neither the old state nor the new state: writing "bc" over "a"
can crash at the one-character prefix "b". -/
theorem save_json_partial_crash_state :
    ['b'] ∈ save_json_crash_states ['a'] ['b', 'c']
  ∧ (['b'] ≠ ['a'] ∧ ['b'] ≠ ['b', 'c']) := by
  refine ⟨by decide, by decide, by decide⟩

/-- Claim C9 (amended): writes that go through
`RatesStorage._write_atomic` — the parser-service rates cache and
history — are atomic: every crash state is the complete old content or
the complete new content; but the cache writes performed by the rate
resolver after a fallback resolution go through `save_json`, which is
NOT atomic in this sense. -/
theorem persistence_atomicity_split :
    (∀ old new s, s ∈ RatesStorage.write_atomic_crash_states old new →
      s = old ∨ s = new)
  ∧ ¬ (∀ old new s, s ∈ save_json_crash_states old new →
      s = old ∨ s = new) := by
  constructor
  · intro old new s h
    simpa [RatesStorage.write_atomic_crash_states] using h
  · intro hall
    rcases hall ['a'] ['b', 'c'] ['b'] (by decide) with h | h <;>
      simp at h

/-- Witness for C9: the pre-replace crash state of an atomic write is
the old content. -/
theorem persistence_atomicity_split_witness :
    (['x'] ∈ RatesStorage.write_atomic_crash_states ['x'] ['y', 'z'])
  ∧ (['x'] = ['x'] ∨ ['x'] = ['y', 'z']) :=
  ⟨by decide,
   persistence_atomicity_split.1 ['x'] ['y', 'z'] ['x'] (by decide)⟩

end ValutaTrade
